import Mathlib

/-!
Shallow embedding of the multi-source game search and result-reconciliation
pipeline of the Virtual-GameVault repository (src/js/search-manager.js,
src/js/wikidata-service.js and the WikipediaService source file), together
with proofs about it.

Modelling conventions:
- JS strings are Lean String values; string-or-null-or-undefined values are
  Option String, and JS truthiness of such a value is truthyStr (both the
  absent value and the empty string are falsy).
- JS numbers in this code are exact decimal fractions, modelled as ℚ.
  Rational arithmetic is written with the kernel-computable wrappers
  qAdd, qSub, qMul (proven equal to the ℚ field operations below), because
  the library's Rat.add and friends are irreducible and would block
  evaluation of concrete witnesses.
- JS arrays are Lean lists; a field that the source either leaves undefined
  or sets to an array is Option (List _) only where JS distinguishes the two
  (an empty array is truthy), otherwise List _ with undefined read as [].
- Network calls (the two metadata adapters) and ambient effects
  (Date.now, Math.random, JS Date parsing) are explicit parameters, so each
  pipeline function is a pure function of its inputs.
- JS Array.prototype.sort is modelled as a stable insertion sort; JS Map as
  an insertion-ordered association list.
-/

/-! ## JS string and number semantics helpers -/

/-- Truthiness of a JS string-or-null-or-undefined value: null, undefined and
the empty string are falsy, every other string is truthy. -/
def truthyStr : Option String → Bool
  | none => false
  | some s => s != ""

/-- Model of the JS expression a OR b for two optional strings: the left
operand if truthy, otherwise the right operand. -/
def jsOrOpt (a b : Option String) : Option String :=
  if truthyStr a then a else b

/-- Model of the JS expression a OR d where d is a plain string default. -/
def jsOrDefault (a : Option String) (d : String) : String :=
  if truthyStr a then a.getD d else d

/-- JS template-literal interpolation of a string that may be undefined:
undefined interpolates as the text undefined. -/
def jsInterpolate : Option String → String
  | none => "undefined"
  | some s => s

def isWsChar (c : Char) : Bool := c.isWhitespace

/-- Model of JS String.prototype.trim on the character list: drop leading and
trailing whitespace. -/
def trimList (l : List Char) : List Char :=
  ((l.dropWhile isWsChar).reverse.dropWhile isWsChar).reverse

/-- Model of JS String.prototype.trim. -/
def jsTrim (s : String) : String := String.mk (trimList s.data)

/-- Model of JS String.prototype.toLowerCase, character by character (exact
for the ASCII strings this pipeline handles). -/
def jsToLower (s : String) : String := String.mk (s.data.map Char.toLower)

/-- Helper for jsIncludes: does pat occur as a contiguous run in the list. -/
def hasSubstrAux (pat : List Char) : List Char → Bool
  | [] => pat.isEmpty
  | c :: t => pat.isPrefixOf (c :: t) || hasSubstrAux pat t

/-- Model of JS String.prototype.includes. -/
def jsIncludes (hay pat : String) : Bool := hasSubstrAux pat.data hay.data

/-- Kernel-computable addition on ℚ (the library addition is irreducible). -/
def qAdd (a b : ℚ) : ℚ := mkRat (a.num * b.den + b.num * a.den) (a.den * b.den)

/-- Kernel-computable subtraction on ℚ. -/
def qSub (a b : ℚ) : ℚ := mkRat (a.num * b.den - b.num * a.den) (a.den * b.den)

/-- Kernel-computable multiplication on ℚ. -/
def qMul (a b : ℚ) : ℚ := mkRat (a.num * b.num) (a.den * b.den)

/-- Lexicographic comparison of character lists, the order JS uses for the
default Array.prototype.sort comparator on (BMP) strings. -/
def charListLe : List Char → List Char → Bool
  | [], _ => true
  | _ :: _, [] => false
  | a :: as, b :: bs => if a < b then true else if b < a then false else charListLe as bs

/-- String order used by the JS default sort comparator. -/
def jsStrLe (a b : String) : Bool := charListLe a.data b.data

/-- Insertion step of the stable sort modelling JS Array.prototype.sort. -/
def jsInsert (le : α → α → Bool) (a : α) : List α → List α
  | [] => [a]
  | b :: l => if le a b then a :: b :: l else b :: jsInsert le a l

/-- Model of JS Array.prototype.sort with a comparator: a stable comparison
sort (insertion sort), parameterised by the non-strict order le derived from
the comparator. -/
def jsSort (le : α → α → Bool) : List α → List α
  | [] => []
  | a :: l => jsInsert le a (jsSort le l)

/-- Model of JS Array.prototype.join with separator a comma. -/
def joinCommas : List String → String
  | [] => ""
  | [s] => s
  | s :: rest => s ++ "," ++ joinCommas rest

/-! ## Data model

One record type covers the duck-typed result objects of both sources; fields
a given source never sets keep their defaults, which read back as the JS
undefined (for Option fields) or the empty array. -/

/-- The dataSource provenance object carried by results of both services. -/
structure DataSource where
  primary : Option String := none
  attribution : Option String := none
  wikidataId : Option String := none
  lastUpdated : Option String := none
  fallback : Option String := none
  wikipediaAttribution : Option String := none
  deriving DecidableEq, Inhabited

/-- The CC BY-SA attribution object generated by the Wikipedia service. -/
structure AttributionInfo where
  text : String := ""
  url : Option String := none
  license : String := ""
  licenseUrl : String := ""
  deriving DecidableEq, Inhabited

/-- The searchMetadata object attached by the search manager. -/
structure SearchMetadata where
  source : Option String := none
  query : Option String := none
  timestamp : Option Nat := none
  confidence : Option ℚ := none
  enhancedWithWikipedia : Bool := false
  deriving DecidableEq, Inhabited

/-- Store deep-links extracted from official websites (wikidata-service). -/
structure StoreLinks where
  steam : Option String := none
  playstation : Option String := none
  nintendo : Option String := none
  xbox : Option String := none
  epic : Option String := none
  gog : Option String := none
  deriving DecidableEq, Inhabited

/-- The dataCompleteness indicator block added by addFallbackIndicators. -/
structure CompletenessFlags where
  hasTitle : Bool := false
  hasReleaseDate : Bool := false
  hasPlatforms : Bool := false
  hasDeveloper : Bool := false
  hasPublisher : Bool := false
  hasCoverImage : Bool := false
  hasStoreLinks : Bool := false
  completenessScore : Nat := 0
  deriving DecidableEq, Inhabited

/-- The fallbackNeeded indicator block added by addFallbackIndicators. -/
structure FallbackFlags where
  releaseDate : Bool := false
  platforms : Bool := false
  developer : Bool := false
  publisher : Bool := false
  coverImage : Bool := false
  description : Bool := false
  deriving DecidableEq, Inhabited

/-- A search-result object (a Candidate of the spec): the union of the field
shapes produced by the Wikidata and Wikipedia services and of the fields the
search manager adds. -/
structure GameResult where
  id : Option String := none
  wikidataId : Option String := none
  wikidataUri : Option String := none
  title : Option String := none
  releaseDate : Option String := none
  releaseYear : Option Int := none
  platforms : List String := []
  developers : List String := []
  publishers : List String := []
  genres : List String := []
  genre : List String := []
  developer : Option String := none
  publisher : Option String := none
  coverImage : Option String := none
  coverImageThumbnail : Option String := none
  officialWebsite : Option String := none
  officialWebsites : List String := []
  officialStoreLinks : Option StoreLinks := none
  description : Option String := none
  series : Option String := none
  engine : Option String := none
  modes : Option (List String) := none
  director : Option String := none
  producer : Option String := none
  designer : Option String := none
  programmer : Option String := none
  artist : Option String := none
  writer : Option String := none
  composer : Option String := none
  dataSource : Option DataSource := none
  attribution : Option AttributionInfo := none
  searchMetadata : Option SearchMetadata := none
  dataCompleteness : Option CompletenessFlags := none
  fallbackNeeded : Option FallbackFlags := none
  deriving DecidableEq, Inhabited

/-- One entry of the search cache. -/
structure CacheEntry where
  results : List GameResult := []
  timestamp : Nat := 0
  deriving DecidableEq, Inhabited

/-- The search cache: a JS Map, modelled as an insertion-ordered association
list with at most one live binding per key. -/
abbrev SearchCache := List (String × CacheEntry)

/-- The observable outcome of one searchGame call: the returned list, the
cache state afterwards, and how many times each adapter was invoked. -/
structure SearchOutcome where
  results : List GameResult
  cache : SearchCache
  wikidataCalls : Nat
  wikipediaCalls : Nat
  deriving DecidableEq, Inhabited

/-! ## search-manager.js: scoring and similarity -/

/-- Embedding of SearchManager.calculateDataCompleteness: the fraction of the
fixed eight-field checklist that is filled (JS truthiness per field). -/
def calculateDataCompleteness (result : GameResult) : ℚ :=
  let fields : List Bool := [
    truthyStr result.title,
    truthyStr result.releaseDate,
    truthyStr result.developer,
    truthyStr result.publisher,
    !result.platforms.isEmpty,
    !result.genre.isEmpty,
    truthyStr result.coverImage,
    truthyStr result.description]
  let filledFields := fields.countP (fun b => b)
  mkRat filledFields fields.length

/-- Embedding of SearchManager.calculateWikidataConfidence. -/
def calculateWikidataConfidence (result : GameResult) (query : String) : ℚ :=
  let queryLower := jsToLower query
  let titleLower := jsToLower (result.title.getD "")
  let c1 : ℚ :=
    if titleLower = queryLower then mkRat 1 2
    else if jsIncludes titleLower queryLower || jsIncludes queryLower titleLower then mkRat 3 10
    else 0
  let c2 := qAdd c1 (qMul (calculateDataCompleteness result) (mkRat 3 10))
  let c3 := if truthyStr result.wikidataId then qAdd c2 (mkRat 1 5) else c2
  min c3 1

/-- Embedding of SearchManager.calculateWikipediaConfidence. -/
def calculateWikipediaConfidence (result : GameResult) (query : String) : ℚ :=
  let queryLower := jsToLower query
  let titleLower := jsToLower (result.title.getD "")
  let c1 : ℚ :=
    if titleLower = queryLower then mkRat 2 5
    else if jsIncludes titleLower queryLower || jsIncludes queryLower titleLower then mkRat 1 4
    else 0
  let c2 := qAdd c1 (qMul (calculateDataCompleteness result) (mkRat 1 4))
  let c3 :=
    if truthyStr (result.dataSource.bind DataSource.attribution) then qAdd c2 (mkRat 3 20)
    else c2
  let c4 :=
    if truthyStr result.description && decide (50 < (result.description.getD "").length) then
      qAdd c3 (mkRat 1 5)
    else c3
  min c4 1

/-- The JS expression searchMetadata?.confidence OR 0 read off a result. -/
def confVal (result : GameResult) : ℚ :=
  match result.searchMetadata with
  | none => 0
  | some m => m.confidence.getD 0

/-- Embedding of SearchManager.hasGoodQualityResults: some result has
confidence above 0.7 and completeness above 0.5. -/
def hasGoodQualityResults (results : List GameResult) : Bool :=
  results.any (fun result =>
    decide (mkRat 7 10 < confVal result) &&
    decide (mkRat 1 2 < calculateDataCompleteness result))

/-- Helper for extractYear: the first position holding four consecutive
digits, read as a number (the JS regex (\d-four-times) with parseInt). -/
def fourDigitsAt : List Char → Option Nat
  | a :: b :: c :: d :: _ =>
    if a.isDigit && b.isDigit && c.isDigit && d.isDigit then
      some ((a.toNat - 48) * 1000 + (b.toNat - 48) * 100 + (c.toNat - 48) * 10 + (d.toNat - 48))
    else none
  | _ => none

def extractYearAux : List Char → Option Nat
  | [] => none
  | c :: t =>
    match fourDigitsAt (c :: t) with
    | some y => some y
    | none => extractYearAux t

/-- Embedding of SearchManager.extractYear: first four-digit run of the date
string, or null when the string is falsy or has no such run. -/
def extractYear (dateString : Option String) : Option Nat :=
  match dateString with
  | none => none
  | some s => if s = "" then none else extractYearAux s.data

/-- Embedding of SearchManager.areResultsSimilar: equal lowercased trimmed
titles, or one title a substring of the other, or equal truthy release years
with overlapping lowercased platform sets. -/
def areResultsSimilar (result1 result2 : GameResult) : Bool :=
  let title1 := jsTrim (jsToLower (result1.title.getD ""))
  let title2 := jsTrim (jsToLower (result2.title.getD ""))
  if title1 = title2 then true
  else if jsIncludes title1 title2 || jsIncludes title2 title1 then true
  else
    match extractYear result1.releaseDate, extractYear result2.releaseDate with
    | some year1, some year2 =>
      if year1 != 0 && year2 != 0 && year1 == year2 then
        (result1.platforms.map jsToLower).any (fun p =>
          (result2.platforms.map jsToLower).contains p)
      else false
    | _, _ => false

/-! ## search-manager.js: merge and enhancement -/

/-- Embedding of SearchManager.enhanceResultWithWikipediaData, written as a
pure update of the primary result (the source mutates it in place): fill a
missing description, record a Wikipedia fallback attribution, fill missing
series and empty modes, and set the enhancedWithWikipedia flag. -/
def enhanceResultWithWikipediaData (wikidataResult wikipediaResult : GameResult) : GameResult :=
  let r1 :=
    if !truthyStr wikidataResult.description && truthyStr wikipediaResult.description then
      { wikidataResult with description := wikipediaResult.description }
    else wikidataResult
  let wpAttr := wikipediaResult.dataSource.bind DataSource.attribution
  let r2 :=
    if truthyStr wpAttr then
      { r1 with dataSource := some { r1.dataSource.getD {} with
          fallback := some "wikipedia", wikipediaAttribution := wpAttr } }
    else r1
  let r3 :=
    if truthyStr wikipediaResult.series && !truthyStr r2.series then
      { r2 with series := wikipediaResult.series }
    else r2
  let modesEmpty : Bool :=
    match r3.modes with
    | none => true
    | some l => l.isEmpty
  let r4 :=
    if wikipediaResult.modes.isSome && modesEmpty then
      { r3 with modes := wikipediaResult.modes }
    else r3
  { r4 with searchMetadata := some { r4.searchMetadata.getD {} with enhancedWithWikipedia := true } }

/-- Does some result of the list count as similar to the candidate (the JS
some-call inside mergeSearchResults). -/
def simToAny (results : List GameResult) (candidate : GameResult) : Bool :=
  results.any (fun r => areResultsSimilar r candidate)

/-- Enhance the first similar primary result in place (the JS find-call of
mergeSearchResults followed by the in-place enhancement). -/
def enhanceFirst : List GameResult → GameResult → List GameResult
  | [], _ => []
  | p :: ps, s =>
    if areResultsSimilar p s then enhanceResultWithWikipediaData p s :: ps
    else p :: enhanceFirst ps s

/-- Loop of SearchManager.mergeSearchResults: primaries evolve by in-place
enhancement (object aliasing made explicit by state passing), non-duplicate
secondaries accumulate in order. -/
def mergeSearchResultsAux : List GameResult → List GameResult → List GameResult → List GameResult
  | primaries, acc, [] => primaries ++ acc
  | primaries, acc, s :: rest =>
    if simToAny primaries s then mergeSearchResultsAux (enhanceFirst primaries s) acc rest
    else mergeSearchResultsAux primaries (acc ++ [s]) rest

/-- Embedding of SearchManager.mergeSearchResults. -/
def mergeSearchResults (wikidataResults wikipediaResults : List GameResult) : List GameResult :=
  mergeSearchResultsAux wikidataResults [] wikipediaResults

/-- The enhanced-primaries sequence the spec describes for the merge step:
the primaries evolve, for each secondary similar to one of them, by enhancing
the first similar primary; written for comparison against
mergeSearchResults. -/
def mergeEnhancedPrimaries (wikidataResults wikipediaResults : List GameResult) :
    List GameResult :=
  wikipediaResults.foldl
    (fun cur s => if simToAny cur s then enhanceFirst cur s else cur) wikidataResults

/-! ## search-manager.js: deduplication and ranking -/

/-- Interpolated title part of the deduplication key (optional chaining plus
template literal: an absent title interpolates as undefined). -/
def keyTitlePart : Option String → String
  | none => "undefined"
  | some t => jsToLower t

/-- Interpolated releaseDate part of the deduplication key (the Wikidata path
stores null for an unparseable date and null interpolates as null). -/
def keyDatePart : Option String → String
  | none => "null"
  | some s => s

/-- The deduplication key of SearchManager.removeDuplicates: lowercased title,
release date, and the sorted platform list joined by commas. -/
def dedupKey (result : GameResult) : String :=
  keyTitlePart result.title ++ "_" ++ keyDatePart result.releaseDate ++ "_" ++
    joinCommas (jsSort jsStrLe result.platforms)

/-- Loop of SearchManager.removeDuplicates. The JS filter callback sorts each
platforms array in place while building the key, so the surviving results
carry sorted platforms; seen accumulates the keys already kept. -/
def removeDuplicatesAux : List String → List GameResult → List GameResult
  | _, [] => []
  | seen, result :: rest =>
    let sorted := { result with platforms := jsSort jsStrLe result.platforms }
    let key := dedupKey result
    if seen.contains key then removeDuplicatesAux seen rest
    else sorted :: removeDuplicatesAux (key :: seen) rest

/-- Embedding of SearchManager.removeDuplicates. -/
def removeDuplicates (results : List GameResult) : List GameResult :=
  removeDuplicatesAux [] results

/-- The JS expression searchMetadata?.source === wikidata, scored 1 or 0, used
by the ranking comparator. -/
def sourceScore (a : GameResult) : ℚ :=
  if a.searchMetadata.bind SearchMetadata.source = some "wikidata" then 1 else 0

/-- The ranking comparator of SearchManager.rankAndDeduplicateResults:
descending confidence outside a 0.1 band, then descending completeness
outside a 0.1 band, then Wikidata before Wikipedia. A negative value sorts a
before b. -/
def compareResults (a b : GameResult) : ℚ :=
  let confidenceDiff := qSub (confVal b) (confVal a)
  if mkRat 1 10 < |confidenceDiff| then confidenceDiff
  else
    let completenessDiff := qSub (calculateDataCompleteness b) (calculateDataCompleteness a)
    if mkRat 1 10 < |completenessDiff| then completenessDiff
    else qSub (sourceScore b) (sourceScore a)

/-- The non-strict order fed to the stable sort: a may stay before b exactly
when the comparator does not require swapping them. -/
def resultLe (a b : GameResult) : Bool := decide (compareResults a b ≤ 0)

/-- Embedding of SearchManager.rankAndDeduplicateResults: exact-duplicate
removal, stable sort by the comparator, truncation to ten entries. -/
def rankAndDeduplicateResults (results : List GameResult) : List GameResult :=
  ((jsSort resultLe (removeDuplicates results)).take 10)

/-! ## search-manager.js: cache -/

/-- The cache timeout of five minutes in milliseconds. -/
def cacheTimeout : Nat := 5 * 60 * 1000

/-- Model of JS Map.prototype.set: replace the binding in place or append. -/
def mapSet : SearchCache → String → CacheEntry → SearchCache
  | [], k, v => [(k, v)]
  | (k1, v1) :: m, k, v =>
    if k1 = k then (k, v) :: m else (k1, v1) :: mapSet m k v

/-- Model of JS Map.prototype.get. -/
def mapLookup : SearchCache → String → Option CacheEntry
  | [], _ => none
  | (k1, v1) :: m, k => if k1 = k then some v1 else mapLookup m k

/-- Model of JS Map.prototype.delete. -/
def mapDelete (m : SearchCache) (k : String) : SearchCache :=
  m.filter (fun p => p.1 != k)

/-- Embedding of SearchManager.cleanCache: drop every entry older than the
cache timeout. -/
def cleanCache (now : Nat) (m : SearchCache) : SearchCache :=
  m.filter (fun p => !(decide (cacheTimeout < now - p.2.timestamp)))

/-- Embedding of SearchManager.cacheResult: store under the lowercased
trimmed query, stamped with the current time, then clean expired entries. -/
def cacheResult (query : String) (now : Nat) (results : List GameResult)
    (cache : SearchCache) : SearchCache :=
  let cacheKey := jsTrim (jsToLower query)
  cleanCache now (mapSet cache cacheKey { results := results, timestamp := now })

/-- Embedding of SearchManager.getCachedResult: look up the lowercased
trimmed query; a stale hit is deleted and reported as a miss. Returns the
optional hit and the cache afterwards. -/
def getCachedResult (query : String) (now : Nat) (cache : SearchCache) :
    Option (List GameResult) × SearchCache :=
  let cacheKey := jsTrim (jsToLower query)
  match mapLookup cache cacheKey with
  | none => (none, cache)
  | some cached =>
    if cacheTimeout < now - cached.timestamp then (none, mapDelete cache cacheKey)
    else (some cached.results, cache)

/-! ## search-manager.js: the orchestrator -/

/-- Embedding of SearchManager.executeWikidataSearch: the adapter outcome is
a parameter (ok carries the parsed service results, error models a throw,
which the catch turns into the empty list); search metadata is attached to
every result. -/
def executeWikidataSearch (query : String) (now : Nat)
    (wikidataOutcome : Except Unit (List GameResult)) : List GameResult :=
  match wikidataOutcome with
  | .error _ => []
  | .ok results =>
    results.map (fun result =>
      { result with searchMetadata := some {
          source := some "wikidata",
          query := some query,
          timestamp := some now,
          confidence := some (calculateWikidataConfidence result query) } })

/-- Embedding of SearchManager.executeFallbackSearch: the Wikipedia adapter
outcome is a parameter (ok none models a null result, error a throw, both
yielding the empty list); a result is standardised with a fresh id and
search metadata. -/
def executeFallbackSearch (query : String) (now : Nat) (freshId : String)
    (wikipediaOutcome : Except Unit (Option GameResult)) : List GameResult :=
  match wikipediaOutcome with
  | .error _ => []
  | .ok none => []
  | .ok (some result) =>
    [{ result with
        id := some freshId,
        searchMetadata := some {
          source := some "wikipedia",
          query := some query,
          timestamp := some now,
          confidence := some (calculateWikipediaConfidence result query) } }]

/-- Embedding of SearchManager.searchGame. Ambient effects are parameters:
now is Date.now, freshId the generated search-result id, the two adapter
outcomes stand for the awaited service calls, and the cache is threaded
explicitly. The outer try-catch of the source is unreachable because both
execute helpers already catch internally, so the model is a total function;
the outcome also counts the adapter invocations. -/
def searchGame (query : String) (now : Nat) (freshId : String)
    (wikidataOutcome : Except Unit (List GameResult))
    (wikipediaOutcome : Except Unit (Option GameResult))
    (cache : SearchCache) : SearchOutcome :=
  if query = "" || decide ((jsTrim query).length < 2) then
    { results := [], cache := cache, wikidataCalls := 0, wikipediaCalls := 0 }
  else
    let normalizedQuery := jsTrim query
    match getCachedResult normalizedQuery now cache with
    | (some cachedResult, cache1) =>
      { results := cachedResult, cache := cache1, wikidataCalls := 0, wikipediaCalls := 0 }
    | (none, cache1) =>
      let wikidataResults := executeWikidataSearch normalizedQuery now wikidataOutcome
      if decide (0 < wikidataResults.length) && hasGoodQualityResults wikidataResults then
        let results := rankAndDeduplicateResults wikidataResults
        { results := results,
          cache := cacheResult normalizedQuery now results cache1,
          wikidataCalls := 1, wikipediaCalls := 0 }
      else
        let wikipediaResults := executeFallbackSearch normalizedQuery now freshId wikipediaOutcome
        let mergedResults := mergeSearchResults wikidataResults wikipediaResults
        let finalResults := rankAndDeduplicateResults mergedResults
        { results := finalResults,
          cache := cacheResult normalizedQuery now finalResults cache1,
          wikidataCalls := 1, wikipediaCalls := 1 }

/-! ## wikidata-service.js

The SPARQL response is a list of variable bindings; each binding field below
is the optional string value of the corresponding SPARQL variable. JS Date
behaviour (new Date parsing, toISOString, getFullYear) is host-defined, so it
enters as the JsDate oracle; likewise the host URL parser behind
isValidImageUrl. -/

/-- One SPARQL result row (the value strings of its named bindings). -/
structure SparqlBinding where
  game : Option String := none
  gameLabel : Option String := none
  wikidataId : Option String := none
  releaseDate : Option String := none
  platformLabel : Option String := none
  developerLabel : Option String := none
  publisherLabel : Option String := none
  genreLabel : Option String := none
  image : Option String := none
  officialWebsite : Option String := none
  description : Option String := none
  deriving DecidableEq, Inhabited

/-- Embedding of WikidataService.extractValue: the value of a binding if the
binding is present and its value truthy, else null. -/
def extractValue : Option String → Option String
  | none => none
  | some v => if v = "" then none else some v

/-- Oracle for the host JS Date object: parse yields the YYYY-MM-DD form of
new Date of the given string when that date is valid, year yields
getFullYear of it. -/
structure JsDate where
  parse : String → Option String
  year : String → Option Int

/-- The replace of a single leading plus sign in WikidataService.parseDate. -/
def stripLeadingPlus (s : String) : String :=
  match s.data with
  | '+' :: t => String.mk t
  | _ => s

/-- Embedding of WikidataService.parseDate: null for a falsy input, else the
host-parsed ISO date of the input with its leading plus stripped (null when
the host cannot parse it). -/
def parseDate (jd : JsDate) (dateString : Option String) : Option String :=
  match dateString with
  | none => none
  | some s => if s = "" then none else jd.parse (stripLeadingPlus s)

/-- JS Set.prototype.add on an insertion-ordered list model of a Set. -/
def setAdd (l : List String) (x : String) : List String :=
  if l.contains x then l else l ++ [x]

/-- The fresh game object parseWikidataResponse stores for an unseen entity
id (its multi-valued accumulators start empty). -/
def initWikidataEntry (jd : JsDate) (nowIso : String) (wikidataId gameUri : String)
    (binding : SparqlBinding) : GameResult :=
  { id := some wikidataId,
    wikidataId := some wikidataId,
    wikidataUri := some gameUri,
    title := some (jsOrDefault (extractValue binding.gameLabel) "Unknown Title"),
    releaseDate := parseDate jd (extractValue binding.releaseDate),
    platforms := [],
    developers := [],
    publishers := [],
    genres := [],
    coverImage := extractValue binding.image,
    officialWebsite := extractValue binding.officialWebsite,
    description := extractValue binding.description,
    dataSource := some {
      primary := some "wikidata",
      wikidataId := some wikidataId,
      lastUpdated := some nowIso } }

/-- The per-binding accumulation of parseWikidataResponse: add the platform,
developer, publisher and genre labels of the row to the entity's sets. -/
def addBindingLabels (binding : SparqlBinding) (game : GameResult) : GameResult :=
  let game :=
    match extractValue binding.platformLabel with
    | some platform => { game with platforms := setAdd game.platforms platform }
    | none => game
  let game :=
    match extractValue binding.developerLabel with
    | some developer => { game with developers := setAdd game.developers developer }
    | none => game
  let game :=
    match extractValue binding.publisherLabel with
    | some publisher => { game with publishers := setAdd game.publishers publisher }
    | none => game
  match extractValue binding.genreLabel with
  | some genre => { game with genres := setAdd game.genres genre }
  | none => game

/-- Lookup in the insertion-ordered entity map of parseWikidataResponse. -/
def gameMapGet : List (String × GameResult) → String → Option GameResult
  | [], _ => none
  | (k1, v1) :: m, k => if k1 = k then some v1 else gameMapGet m k

/-- In-place update of an existing key of the entity map. -/
def gameMapReplace : List (String × GameResult) → String → GameResult →
    List (String × GameResult)
  | [], _, _ => []
  | (k1, v1) :: m, k, v =>
    if k1 = k then (k, v) :: m else (k1, v1) :: gameMapReplace m k v

/-- One loop iteration of parseWikidataResponse: rows lacking a truthy
entity id or entity URI are skipped; a first row for an entity initialises
its object, and every row accumulates the multi-valued labels. -/
def gameMapUpdate (jd : JsDate) (nowIso : String) (m : List (String × GameResult))
    (binding : SparqlBinding) : List (String × GameResult) :=
  match extractValue binding.wikidataId, extractValue binding.game with
  | some wikidataId, some gameUri =>
    (match gameMapGet m wikidataId with
     | none =>
       m ++ [(wikidataId,
         addBindingLabels binding (initWikidataEntry jd nowIso wikidataId gameUri binding))]
     | some game => gameMapReplace m wikidataId (addBindingLabels binding game))
  | _, _ => m

/-- Embedding of WikidataService.parseWikidataResponse: group the rows by
entity id in first-appearance order, then expose the first accumulated
developer and publisher as the primary ones (none when the sets are empty,
the JS OR-null). The response is none when results.bindings is absent. -/
def parseWikidataResponse (jd : JsDate) (nowIso : String)
    (response : Option (List SparqlBinding)) : List GameResult :=
  match response with
  | none => []
  | some bindings =>
    let gameMap := bindings.foldl (gameMapUpdate jd nowIso) []
    gameMap.map (fun p =>
      { p.2 with
        developer := p.2.developers.head?,
        publisher := p.2.publishers.head? })

/-- Embedding of WikidataService.isValidGameData: a truthy title other than
the Unknown Title placeholder, and a truthy wikidata id. This helper is
defined by the service but never invoked by it. -/
def isValidGameData (gameData : GameResult) : Bool :=
  truthyStr gameData.title && gameData.title != some "Unknown Title" &&
    truthyStr gameData.wikidataId

/-- The result shape of WikidataMetadataExtractor.extractReleaseDate (the
fields the caller consumes, plus the diagnostic ones the source attaches). -/
structure ReleaseInfo where
  date : Option String := none
  year : Option Int := none
  precision : String := "unknown"
  hasData : Bool := false
  raw : Option String := none
  deriving DecidableEq, Inhabited

/-- Embedding of WikidataMetadataExtractor.extractReleaseDate. -/
def extractReleaseDate (jd : JsDate) (binding : SparqlBinding) : ReleaseInfo :=
  match extractValue binding.releaseDate with
  | none => {}
  | some rawDate =>
    let parsedDate := parseDate jd (some rawDate)
    { date := parsedDate,
      year := parsedDate.bind jd.year,
      precision := if parsedDate.isSome then "day" else "unknown",
      hasData := true,
      raw := some rawDate }

/-- The platform-name normalisation table of extractPlatforms. -/
def platformMapping (p : String) : String :=
  if p = "Microsoft Windows" then "PC"
  else if p = "Windows" then "PC"
  else if p = "PlayStation 4" then "PlayStation 4"
  else if p = "PlayStation 5" then "PlayStation 5"
  else if p = "Nintendo Switch" then "Nintendo Switch"
  else if p = "Xbox One" then "Xbox One"
  else if p = "Xbox Series X and Series S" then "Xbox Series X/S"
  else if p = "Steam" then "PC"
  else if p = "Epic Games Store" then "PC"
  else p

/-- Embedding of WikidataMetadataExtractor.extractPlatforms (its platforms
array; the count and flag the source also returns are discarded upstream). -/
def extractPlatforms (bindings : List SparqlBinding) : List String :=
  bindings.foldl (fun platforms binding =>
    match extractValue binding.platformLabel with
    | some platform => setAdd platforms (platformMapping platform)
    | none => platforms) []

/-- Embedding of WikidataMetadataExtractor.extractDevelopers (its developers
array: trimmed names with a truthy trim, set semantics). -/
def extractDevelopers (bindings : List SparqlBinding) : List String :=
  bindings.foldl (fun developers binding =>
    match extractValue binding.developerLabel with
    | some developer =>
      if jsTrim developer != "" then setAdd developers (jsTrim developer) else developers
    | none => developers) []

/-- Embedding of WikidataMetadataExtractor.extractPublishers. -/
def extractPublishers (bindings : List SparqlBinding) : List String :=
  bindings.foldl (fun publishers binding =>
    match extractValue binding.publisherLabel with
    | some publisher =>
      if jsTrim publisher != "" then setAdd publishers (jsTrim publisher) else publishers
    | none => publishers) []

/-- Replace the first occurrence of pat in the list by rep (the semantics of
JS String.prototype.replace with a plain-string pattern). -/
def replaceFirstAux (pat rep : List Char) : List Char → List Char
  | [] => []
  | c :: t =>
    if pat.isPrefixOf (c :: t) then rep ++ (c :: t).drop pat.length
    else c :: replaceFirstAux pat rep t

/-- Model of JS String.prototype.replace with plain-string arguments. -/
def replaceFirst (s pat rep : String) : String :=
  String.mk (replaceFirstAux pat.data rep.data s.data)

/-- Model of JS split on a separator character (String.prototype.split). -/
def splitOnChar (sep : Char) : List Char → List (List Char)
  | [] => [[]]
  | c :: t =>
    let r := splitOnChar sep t
    if c = sep then [] :: r
    else
      match r with
      | [] => [[c]]
      | h :: rest => (c :: h) :: rest

/-- The expression imageUrl.split on slash followed by pop in
generateThumbnailUrl: the last path segment. -/
def lastPathSegment (s : String) : String :=
  String.mk ((splitOnChar '/' s.data).getLastD [])

/-- Embedding of WikidataMetadataExtractor.generateThumbnailUrl. -/
def generateThumbnailUrl (imageUrl : String) : String :=
  if jsIncludes imageUrl "commons.wikimedia.org" then
    replaceFirst imageUrl "/commons/" "/commons/thumb/" ++ "/300px-" ++ lastPathSegment imageUrl
  else imageUrl

/-- The result shape of WikidataMetadataExtractor.extractCoverImage. -/
structure ImageInfo where
  url : Option String := none
  thumbnailUrl : Option String := none
  isValid : Bool := false
  hasData : Bool := false
  deriving DecidableEq, Inhabited

/-- Embedding of WikidataMetadataExtractor.extractCoverImage. The source
validates the URL with the host URL parser (https scheme plus image file
extension in the path), which enters as the isValidImageUrl parameter; the
validity flag is discarded by the caller. -/
def extractCoverImage (isValidImageUrl : String → Bool) (binding : SparqlBinding) : ImageInfo :=
  match extractValue binding.image with
  | none => {}
  | some imageUrl =>
    { url := some imageUrl,
      hasData := true,
      isValid := isValidImageUrl imageUrl,
      thumbnailUrl := some (generateThumbnailUrl imageUrl) }

/-- Is there a substring occurrence of pat2 after the first occurrence of
pat1 (the regex pat1 dot-star pat2). -/
def suffixAfterFirst (pat : List Char) : List Char → Option (List Char)
  | [] => if pat.isEmpty then some [] else none
  | c :: t =>
    if pat.isPrefixOf (c :: t) then some ((c :: t).drop pat.length)
    else suffixAfterFirst pat t

def containsAfter (s : String) (pat1 pat2 : String) : Bool :=
  match suffixAfterFirst pat1.data s.data with
  | none => false
  | some rest => hasSubstrAux pat2.data rest

/-- Embedding of WikidataMetadataExtractor.detectStoreType: the store domain
patterns tried in declaration order, case-insensitively. -/
def detectStoreType (url : String) : Option String :=
  let u := jsToLower url
  if jsIncludes u "store.steampowered.com" then some "steam"
  else if jsIncludes u "store.playstation.com" then some "playstation"
  else if jsIncludes u "nintendo.com" || jsIncludes u "nintendo.co.jp" then some "nintendo"
  else if containsAfter u "microsoft.com" "xbox" then some "xbox"
  else if jsIncludes u "store.epicgames.com" then some "epic"
  else if jsIncludes u "gog.com" then some "gog"
  else none

/-- Read a store slot of the storeLinks object by name. -/
def storeLinksGet (sl : StoreLinks) (store : String) : Option String :=
  if store = "steam" then sl.steam
  else if store = "playstation" then sl.playstation
  else if store = "nintendo" then sl.nintendo
  else if store = "xbox" then sl.xbox
  else if store = "epic" then sl.epic
  else if store = "gog" then sl.gog
  else none

/-- Write a store slot of the storeLinks object by name. -/
def storeLinksSet (sl : StoreLinks) (store : String) (url : String) : StoreLinks :=
  if store = "steam" then { sl with steam := some url }
  else if store = "playstation" then { sl with playstation := some url }
  else if store = "nintendo" then { sl with nintendo := some url }
  else if store = "xbox" then { sl with xbox := some url }
  else if store = "epic" then { sl with epic := some url }
  else if store = "gog" then { sl with gog := some url }
  else sl

/-- The result shape of WikidataMetadataExtractor.extractOfficialWebsites
(the two components its caller consumes). -/
structure WebsiteInfo where
  websites : List String := []
  storeLinks : StoreLinks := {}
  deriving DecidableEq, Inhabited

/-- Embedding of WikidataMetadataExtractor.extractOfficialWebsites: collect
the official websites as a set and fill each store slot with the first
matching website. -/
def extractOfficialWebsites (bindings : List SparqlBinding) : WebsiteInfo :=
  bindings.foldl (fun info binding =>
    match extractValue binding.officialWebsite with
    | none => info
    | some website =>
      let info := { info with websites := setAdd info.websites website }
      match detectStoreType website with
      | some storeType =>
        if (storeLinksGet info.storeLinks storeType).isNone then
          { info with storeLinks := storeLinksSet info.storeLinks storeType website }
        else info
      | none => info) {}

/-- The truthiness test over the store-link slots used by the hasStoreLinks
indicator. -/
def hasAnyStoreLink : Option StoreLinks → Bool
  | none => false
  | some sl =>
    truthyStr sl.steam || truthyStr sl.playstation || truthyStr sl.nintendo ||
      truthyStr sl.xbox || truthyStr sl.epic || truthyStr sl.gog

/-- Embedding of WikidataMetadataExtractor.calculateCompletenessScore: the
rounded percentage of its eight-field checklist (the formula below is the
exact value of Math.round of filled over eight times one hundred). -/
def calculateCompletenessScore (gameData : GameResult) : Nat :=
  let fields : List Bool := [
    truthyStr gameData.title,
    truthyStr gameData.releaseDate,
    !gameData.platforms.isEmpty,
    truthyStr gameData.developer,
    truthyStr gameData.publisher,
    truthyStr gameData.coverImage,
    truthyStr gameData.description,
    !gameData.genres.isEmpty]
  let filledFields := fields.countP (fun b => b)
  (filledFields * 100 + 4) / 8

/-- Embedding of WikidataMetadataExtractor.addFallbackIndicators. -/
def addFallbackIndicators (gameData : GameResult) : GameResult :=
  { gameData with
    dataCompleteness := some {
      hasTitle := truthyStr gameData.title,
      hasReleaseDate := truthyStr gameData.releaseDate,
      hasPlatforms := !gameData.platforms.isEmpty,
      hasDeveloper := truthyStr gameData.developer,
      hasPublisher := truthyStr gameData.publisher,
      hasCoverImage := truthyStr gameData.coverImage,
      hasStoreLinks := hasAnyStoreLink gameData.officialStoreLinks,
      completenessScore := calculateCompletenessScore gameData },
    fallbackNeeded := some {
      releaseDate := !truthyStr gameData.releaseDate,
      platforms := gameData.platforms.isEmpty,
      developer := !truthyStr gameData.developer,
      publisher := !truthyStr gameData.publisher,
      coverImage := !truthyStr gameData.coverImage,
      description := !truthyStr gameData.description } }

/-- Embedding of WikidataService.extractEnhancedMetadata: re-derive the
enhanced fields of each parsed game from the rows of its entity and attach
the fallback indicators. WikidataService.searchGameByTitle returns exactly
this value for the response of its query. -/
def extractEnhancedMetadata (jd : JsDate) (isValidImageUrl : String → Bool) (nowIso : String)
    (response : Option (List SparqlBinding)) : List GameResult :=
  let basicResults := parseWikidataResponse jd nowIso response
  let allBindings := response.getD []
  basicResults.map (fun game =>
    let bindings := allBindings.filter (fun binding =>
      extractValue binding.wikidataId == game.wikidataId)
    let releaseInfo := extractReleaseDate jd (bindings.headD {})
    let platformList := extractPlatforms bindings
    let developerList := extractDevelopers bindings
    let publisherList := extractPublishers bindings
    let imageInfo := extractCoverImage isValidImageUrl (bindings.headD {})
    let websiteInfo := extractOfficialWebsites bindings
    addFallbackIndicators { game with
      releaseDate := releaseInfo.date,
      releaseYear := releaseInfo.year,
      platforms := platformList,
      developers := developerList,
      publishers := publisherList,
      developer := developerList.head?,
      publisher := publisherList.head?,
      coverImage := imageInfo.url,
      coverImageThumbnail := imageInfo.thumbnailUrl,
      officialStoreLinks := some websiteInfo.storeLinks,
      officialWebsites := websiteInfo.websites })

/-! ## The WikipediaService source file

The network stages (article search, page content, raw wikitext) appear as
oracle inputs; the pure mapping into the game data model is embedded in
full. -/

/-- The page data getPageContent returns (title, lead extract, primary image,
canonical URL), which extractGameMetadata forwards to the mapper. -/
structure PageContent where
  title : Option String := none
  extract : Option String := none
  image : Option String := none
  url : Option String := none
  deriving DecidableEq, Inhabited

/-- The fields of the parsed infobox after the alias mapping of
parseInfoBoxFields (list-typed fields already split on commas and
semicolons). -/
structure InfoboxData where
  title : Option String := none
  developer : Option String := none
  publisher : Option String := none
  releaseDate : Option String := none
  platforms : Option (List String) := none
  genre : Option (List String) := none
  modes : Option (List String) := none
  series : Option String := none
  engine : Option String := none
  director : Option String := none
  producer : Option String := none
  designer : Option String := none
  programmer : Option String := none
  artist : Option String := none
  writer : Option String := none
  composer : Option String := none
  image : Option String := none
  website : Option String := none
  deriving DecidableEq, Inhabited

/-- Embedding of WikipediaService.generateAttribution. -/
def generateAttribution (wikipediaUrl : Option String) (gameTitle : Option String) :
    AttributionInfo :=
  { text := "Information about \"" ++ jsInterpolate gameTitle ++ "\" from Wikipedia",
    url := wikipediaUrl,
    license := "CC BY-SA 3.0",
    licenseUrl := "https://creativecommons.org/licenses/by-sa/3.0/" }

/-- Embedding of WikipediaService.mapToGameDataModel. The string branches of
the source for platforms, genre and modes are unreachable because the field
parser only produces arrays for those fields, so the typed infobox gives the
array directly (empty when absent). -/
def mapToGameDataModel (nowIso : String) (infoboxData : InfoboxData)
    (pageData : PageContent) : GameResult :=
  { title := jsOrOpt infoboxData.title pageData.title,
    platforms := infoboxData.platforms.getD [],
    releaseDate := some (jsOrDefault infoboxData.releaseDate ""),
    developer := some (jsOrDefault infoboxData.developer ""),
    publisher := some (jsOrDefault infoboxData.publisher ""),
    genre := infoboxData.genre.getD [],
    description := some (jsOrDefault pageData.extract ""),
    coverImage := some (jsOrDefault pageData.image ""),
    series := some (jsOrDefault infoboxData.series ""),
    engine := some (jsOrDefault infoboxData.engine ""),
    modes := some (infoboxData.modes.getD []),
    director := some (jsOrDefault infoboxData.director ""),
    producer := some (jsOrDefault infoboxData.producer ""),
    designer := some (jsOrDefault infoboxData.designer ""),
    programmer := some (jsOrDefault infoboxData.programmer ""),
    artist := some (jsOrDefault infoboxData.artist ""),
    writer := some (jsOrDefault infoboxData.writer ""),
    composer := some (jsOrDefault infoboxData.composer ""),
    dataSource := some {
      primary := some "wikipedia",
      attribution := pageData.url,
      lastUpdated := some nowIso },
    attribution := some (generateAttribution pageData.url pageData.title) }

/-- Embedding of WikipediaService.parseInfoBox: the argument infoboxContent
is the outcome of the infobox template scan over the raw wikitext (none when
the scan yielded nothing; note the source reads element one of a global-flag
match array, so a wikitext holding exactly one infobox also scans to none)
and parseFields stands for parseInfoBoxFields; an absent infobox parses to
the empty field record. -/
def parseInfoBox (infoboxContent : Option String) (parseFields : String → InfoboxData) :
    InfoboxData :=
  match infoboxContent with
  | none => {}
  | some content => parseFields content

/-- Embedding of WikipediaService.extractGameMetadata: null when findGamePage
yields no article, null when the content or wikitext fetch fails (the catch
of the source), otherwise the mapped game data of the fetched page content
and the parsed infobox. -/
def extractGameMetadata (nowIso : String) (pageFound : Bool)
    (fetchOutcome : Except Unit (PageContent × InfoboxData)) : Option GameResult :=
  if !pageFound then none
  else
    match fetchOutcome with
    | .error _ => none
    | .ok (pageContent, infoboxData) =>
      some (mapToGameDataModel nowIso infoboxData pageContent)

/-! ## Sample data for concrete witnesses and counterexamples -/

/-- A concrete instance of the JsDate oracle matching the host behaviour on
the sample dates below: new Date of an ISO timestamp renders as its first ten
characters in toISOString form. -/
def jdSample : JsDate :=
  { parse := fun s => some (String.mk (s.data.take 10)),
    year := fun _ => some 1993 }

/-- Sample SPARQL row for the game Doom. -/
def bindingDoom : SparqlBinding :=
  { game := some "http://www.wikidata.org/entity/Q1",
    gameLabel := some "Doom",
    wikidataId := some "Q1",
    releaseDate := some "+1993-12-10T00:00:00Z",
    platformLabel := some "PC",
    developerLabel := some "id Software",
    publisherLabel := some "GT Interactive",
    image := some "https://example.com/doom.png" }

/-- Sample SPARQL row for the game Doom II. -/
def bindingDoom2 : SparqlBinding :=
  { game := some "http://www.wikidata.org/entity/Q2",
    gameLabel := some "Doom II",
    wikidataId := some "Q2",
    releaseDate := some "+1994-09-30T00:00:00Z",
    platformLabel := some "PC",
    developerLabel := some "id Software",
    publisherLabel := some "GT Interactive",
    image := some "https://example.com/doom2.png" }

/-- The Wikidata service results for the two sample rows. -/
def wdDoomResults : List GameResult :=
  extractEnhancedMetadata jdSample (fun _ => true) "2024-01-01T00:00:00.000Z"
    (some [bindingDoom, bindingDoom2])

/-- A SPARQL row whose gameLabel binding is absent, so the title of the game
cannot be determined from the response. -/
def bindingNoLabel : SparqlBinding :=
  { game := some "http://www.wikidata.org/entity/Q3",
    wikidataId := some "Q3" }

/-- Sample Wikipedia page content for an article whose wikitext yields no
parsed infobox data. -/
def pageCeleste : PageContent :=
  { title := some "Celeste",
    extract := some "A platformer about climbing a mountain.",
    url := some "https://en.wikipedia.org/wiki/Celeste_(video_game)" }

/-- A sample primary candidate with a missing description, series and modes. -/
def primarySample : GameResult :=
  { title := some "Doom",
    wikidataId := some "Q1",
    releaseDate := some "1993-12-10",
    platforms := ["PC"] }

/-- A sample secondary candidate carrying the fields the primary lacks. -/
def secondarySample : GameResult :=
  { title := some "Doom",
    releaseDate := some "1993-12-10",
    platforms := ["PC", "DOS"],
    description := some "A first-person shooter.",
    series := some "Doom",
    modes := some ["single-player"],
    dataSource := some {
      primary := some "wikipedia",
      attribution := some "https://en.wikipedia.org/wiki/Doom_(1993_video_game)" } }

/-- A sample candidate whose platform array is not sorted. -/
def unsortedSample : GameResult :=
  { title := some "Doom", platforms := ["PC", "DOS"] }

/-! ## Bridge lemmas: the computable rational wrappers agree with ℚ -/

theorem qAdd_eq (a b : ℚ) : qAdd a b = a + b := by
  have ha : (a.den : ℚ) ≠ 0 := Nat.cast_ne_zero.mpr a.den_nz
  have hb : (b.den : ℚ) ≠ 0 := Nat.cast_ne_zero.mpr b.den_nz
  rw [qAdd, Rat.mkRat_eq_div]
  push_cast
  conv_rhs => rw [← Rat.num_div_den a, ← Rat.num_div_den b]
  field_simp

theorem qSub_eq (a b : ℚ) : qSub a b = a - b := by
  have ha : (a.den : ℚ) ≠ 0 := Nat.cast_ne_zero.mpr a.den_nz
  have hb : (b.den : ℚ) ≠ 0 := Nat.cast_ne_zero.mpr b.den_nz
  rw [qSub, Rat.mkRat_eq_div]
  push_cast
  conv_rhs => rw [← Rat.num_div_den a, ← Rat.num_div_den b]
  field_simp
  ring

theorem qMul_eq (a b : ℚ) : qMul a b = a * b := by
  have ha : (a.den : ℚ) ≠ 0 := Nat.cast_ne_zero.mpr a.den_nz
  have hb : (b.den : ℚ) ≠ 0 := Nat.cast_ne_zero.mpr b.den_nz
  rw [qMul, Rat.mkRat_eq_div]
  push_cast
  conv_rhs => rw [← Rat.num_div_den a, ← Rat.num_div_den b]
  field_simp

theorem mkRat_one_ten : mkRat 1 10 = (1 : ℚ) / 10 := by
  rw [Rat.mkRat_eq_div]
  norm_num

/-! ## Sort lemmas: the stable sort model -/

theorem perm_jsInsert (le : α → α → Bool) (a : α) (l : List α) :
    (jsInsert le a l).Perm (a :: l) := by
  induction l with
  | nil => simp [jsInsert]
  | cons b t ih =>
    by_cases h : le a b
    · simp [jsInsert, h]
    · simp only [jsInsert, h, if_neg, Bool.not_eq_true]
      exact (ih.cons b).trans (List.Perm.swap a b t)

theorem perm_jsSort (le : α → α → Bool) (l : List α) : (jsSort le l).Perm l := by
  induction l with
  | nil => simp [jsSort]
  | cons a t ih => exact (perm_jsInsert le a (jsSort le t)).trans (ih.cons a)

theorem chain'_jsInsert (le : α → α → Bool)
    (total : ∀ a b, le a b = false → le b a = true) (a : α) (l : List α)
    (h : List.Chain' (fun x y => le x y = true) l) :
    List.Chain' (fun x y => le x y = true) (jsInsert le a l) := by
  induction l with
  | nil => simp [jsInsert]
  | cons b t ih =>
    by_cases hab : le a b
    · rw [jsInsert, if_pos hab, List.chain'_cons]
      exact ⟨hab, h⟩
    · have hba : le b a = true := total a b (by simpa using hab)
      rw [List.chain'_cons'] at h
      simp only [jsInsert, hab, if_neg, Bool.not_eq_true]
      rw [List.chain'_cons']
      refine ⟨?_, ih h.2⟩
      intro y hy
      cases t with
      | nil => simp [jsInsert] at hy; simpa [hy] using hba
      | cons c t2 =>
        by_cases hac : le a c
        · simp [jsInsert, hac] at hy
          simpa [hy] using hba
        · simp [jsInsert, hac] at hy
          have := h.1 c (by simp)
          simpa [hy] using this

theorem chain'_jsSort (le : α → α → Bool)
    (total : ∀ a b, le a b = false → le b a = true) (l : List α) :
    List.Chain' (fun x y => le x y = true) (jsSort le l) := by
  induction l with
  | nil => simp [jsSort]
  | cons a t ih => exact chain'_jsInsert le total a (jsSort le t) ih

theorem jsSort_of_chain' (le : α → α → Bool) (l : List α)
    (h : List.Chain' (fun x y => le x y = true) l) : jsSort le l = l := by
  induction l with
  | nil => rfl
  | cons a t ih =>
    rw [List.chain'_cons'] at h
    rw [jsSort, ih h.2]
    cases t with
    | nil => rfl
    | cons b t2 =>
      have hab : le a b = true := h.1 b (by simp)
      simp [jsInsert, hab]

theorem jsSort_idem (le : α → α → Bool)
    (total : ∀ a b, le a b = false → le b a = true) (l : List α) :
    jsSort le (jsSort le l) = jsSort le l :=
  jsSort_of_chain' le _ (chain'_jsSort le total l)

theorem charListLe_total : ∀ a b : List Char, charListLe a b = false → charListLe b a = true := by
  intro a
  induction a with
  | nil => intro b h; simp [charListLe] at h
  | cons x xs ih =>
    intro b h
    cases b with
    | nil => rfl
    | cons y ys =>
      by_cases hxy : x < y
      · simp [charListLe, hxy] at h
      · by_cases hyx : y < x
        · simp [charListLe, hyx]
        · rw [charListLe, if_neg hxy, if_neg hyx] at h
          rw [charListLe, if_neg hyx, if_neg hxy]
          exact ih ys h

theorem jsStrLe_total : ∀ a b : String, jsStrLe a b = false → jsStrLe b a = true := by
  intro a b h
  exact charListLe_total a.data b.data h

/-! ## Trim lemmas: the short-query guard in terms of non-whitespace count -/

theorem trimList_eq_rdropWhile (l : List Char) :
    trimList l = List.rdropWhile isWsChar (l.dropWhile isWsChar) := rfl

theorem trimList_sublist (l : List Char) : (trimList l).Sublist l := by
  rw [trimList_eq_rdropWhile]
  exact ((List.rdropWhile_prefix isWsChar _).sublist).trans (List.dropWhile_suffix isWsChar).sublist

/-- Heads produced by dropWhile fail the predicate. -/
theorem dropWhile_cons_head_false (p : α → Bool) :
    ∀ (l : List α) (a : α) (t : List α), l.dropWhile p = a :: t → p a = false := by
  intro l
  induction l with
  | nil => intro a t h; simp at h
  | cons c cs ih =>
    intro a t h
    by_cases hc : p c
    · rw [List.dropWhile_cons_of_pos hc] at h
      exact ih a t h
    · rw [List.dropWhile_cons_of_neg hc] at h
      injection h with h1 h2
      subst h1
      simpa using hc

theorem countP_reverse_eq (p : α → Bool) (l : List α) : l.reverse.countP p = l.countP p := by
  simp [List.countP_eq_length_filter, List.filter_reverse]

/-- A string with fewer than two non-whitespace characters trims to fewer
than two characters (the converse direction of the guard equivalence the
spec states). -/
theorem trimList_short_of_few_nonws (l : List Char)
    (h : l.countP (fun c => !isWsChar c) < 2) : (trimList l).length < 2 := by
  by_contra hlen
  push_neg at hlen
  obtain ⟨a, b, t, e⟩ : ∃ a b t, trimList l = a :: b :: t := by
    cases e : trimList l with
    | nil => rw [e] at hlen; simp at hlen
    | cons a t1 =>
      cases t1 with
      | nil => rw [e] at hlen; simp at hlen
      | cons b t2 => exact ⟨a, b, t2, rfl⟩
  have hprefix : trimList l <+: l.dropWhile isWsChar := by
    rw [trimList_eq_rdropWhile]
    exact List.rdropWhile_prefix isWsChar _
  obtain ⟨rest, hr⟩ := hprefix
  rw [e, List.cons_append] at hr
  have ha : isWsChar a = false := dropWhile_cons_head_false isWsChar l a _ hr.symm
  have hm : List.dropWhile isWsChar (List.dropWhile isWsChar l).reverse = (trimList l).reverse := by
    simp [trimList]
  obtain ⟨c, cs, hc⟩ : ∃ c cs, (b :: t).reverse = c :: cs := by
    cases h2 : (b :: t).reverse with
    | nil => exact absurd (congrArg List.length h2) (by simp)
    | cons c cs => exact ⟨c, cs, rfl⟩
  have hmm : List.dropWhile isWsChar (List.dropWhile isWsChar l).reverse = c :: (cs ++ [a]) := by
    rw [hm, e, List.reverse_cons, hc]
    simp
  have hcws : isWsChar c = false := dropWhile_cons_head_false isWsChar _ c _ hmm
  have h1 : 1 ≤ (b :: t).countP (fun x => !isWsChar x) := by
    rw [← countP_reverse_eq, hc, List.countP_cons]
    simp [hcws]
  have h2 : 2 ≤ (trimList l).countP (fun x => !isWsChar x) := by
    rw [e]
    rw [List.countP_cons]
    simp only [ha, Bool.not_false, if_pos]
    omega
  have hle : (trimList l).countP (fun x => !isWsChar x) ≤ l.countP (fun x => !isWsChar x) :=
    (trimList_sublist l).countP_le _
  omega

theorem length_mk (l : List Char) : (String.mk l).length = l.length := rfl

theorem data_mk (l : List Char) : (String.mk l).data = l := rfl

theorem length_jsToLower (s : String) : (jsToLower s).length = s.length := by
  show (s.data.map Char.toLower).length = s.data.length
  exact List.length_map _ _

theorem jsTrim_empty : jsTrim "" = "" := rfl

theorem length_jsTrim_le (s : String) : (jsTrim s).length ≤ s.length :=
  (trimList_sublist s.data).length_le

/-! ## Cache lemmas -/

theorem lookup_cleanCache_mapSet (m : SearchCache) (k : String) (v : CacheEntry) (now : Nat)
    (h : ¬ cacheTimeout < now - v.timestamp) :
    mapLookup (cleanCache now (mapSet m k v)) k = some v := by
  induction m with
  | nil =>
    simp [mapSet, cleanCache, List.filter, h, mapLookup]
  | cons p m ih =>
    obtain ⟨k1, v1⟩ := p
    by_cases hk : k1 = k
    · subst hk
      simp only [mapSet, if_pos rfl]
      simp [cleanCache, List.filter, h, mapLookup]
    · simp only [mapSet, if_neg hk]
      by_cases hkeep : cacheTimeout < now - v1.timestamp
      · simpa [cleanCache, List.filter, hkeep] using ih
      · have hne : (k1 = k) = False := by simp [hk]
        simpa [cleanCache, List.filter, hkeep, mapLookup, hk] using ih

/-! ## Ranking comparator lemmas -/

theorem compareResults_antisymm (a b : GameResult) :
    compareResults b a = -compareResults a b := by
  simp only [compareResults, qSub_eq]
  rw [abs_sub_comm (confVal a) (confVal b),
    abs_sub_comm (calculateDataCompleteness a) (calculateDataCompleteness b)]
  split_ifs <;> ring

theorem resultLe_total (a b : GameResult) (h : resultLe a b = false) : resultLe b a = true := by
  simp only [resultLe, decide_eq_false_iff_not, not_le] at h
  simp only [resultLe, decide_eq_true_eq]
  rw [compareResults_antisymm]
  linarith

theorem resultLe_confidence_band (a b : GameResult) (h : resultLe a b = true) :
    confVal b - 1 / 10 ≤ confVal a := by
  simp only [resultLe, decide_eq_true_eq] at h
  by_cases hc : mkRat 1 10 < |qSub (confVal b) (confVal a)|
  · have hcmp : compareResults a b = qSub (confVal b) (confVal a) := by
      simp only [compareResults, if_pos hc]
    rw [hcmp, qSub_eq] at h
    linarith
  · rw [mkRat_one_ten, qSub_eq] at hc
    push_neg at hc
    have := (abs_le.mp hc).2
    linarith

/-- C3: every pair of adjacent entries of the ranked output is ordered by the
comparator, and in particular the confidence of the earlier entry is at least
the confidence of the later entry minus the 0.1 tie band. -/
theorem rankAndDeduplicate_adjacent_confidence (results : List GameResult) :
    List.Chain' (fun a b => resultLe a b = true) (rankAndDeduplicateResults results) ∧
    List.Chain' (fun a b => confVal b - 1 / 10 ≤ confVal a) (rankAndDeduplicateResults results) := by
  have hchain := chain'_jsSort resultLe resultLe_total (removeDuplicates results)
  constructor
  · exact hchain.take 10
  · exact (List.Chain'.imp resultLe_confidence_band hchain).take 10

/-! ## Deduplication lemmas -/

theorem dedupKey_sortPlatforms (r : GameResult) :
    dedupKey { r with platforms := jsSort jsStrLe r.platforms } = dedupKey r := by
  simp [dedupKey, jsSort_idem jsStrLe jsStrLe_total]

theorem removeDuplicatesAux_spec :
    ∀ (l : List GameResult) (seen : List String),
      (∀ x ∈ removeDuplicatesAux seen l, dedupKey x ∉ seen) ∧
      (removeDuplicatesAux seen l).Pairwise (fun a b => dedupKey a ≠ dedupKey b) := by
  intro l
  induction l with
  | nil =>
    intro seen
    constructor
    · intro x hx; simp [removeDuplicatesAux] at hx
    · simp [removeDuplicatesAux]
  | cons r rest ih =>
    intro seen
    by_cases hk : seen.contains (dedupKey r)
    · rw [show removeDuplicatesAux seen (r :: rest) = removeDuplicatesAux seen rest by
        simp only [removeDuplicatesAux]
        rw [if_pos hk]]
      exact ih seen
    · have hkey : dedupKey r ∉ seen := by simpa [List.contains] using hk
      rw [show removeDuplicatesAux seen (r :: rest) =
          { r with platforms := jsSort jsStrLe r.platforms } ::
            removeDuplicatesAux (dedupKey r :: seen) rest by
        simp only [removeDuplicatesAux]
        rw [if_neg hk]]
      obtain ⟨ih1, ih2⟩ := ih (dedupKey r :: seen)
      constructor
      · intro x hx
        rcases List.mem_cons.mp hx with rfl | hx
        · rw [dedupKey_sortPlatforms]; exact hkey
        · exact fun hmem => ih1 x hx (List.mem_cons_of_mem _ hmem)
      · refine List.Pairwise.cons ?_ ih2
        intro x hx
        rw [dedupKey_sortPlatforms]
        intro heq
        exact ih1 x hx (heq ▸ List.mem_cons_self _ _)

theorem removeDuplicates_pairwise_keys (results : List GameResult) :
    (removeDuplicates results).Pairwise (fun a b => dedupKey a ≠ dedupKey b) :=
  (removeDuplicatesAux_spec results []).2

theorem rankAndDeduplicate_pairwise_keys (results : List GameResult) :
    (rankAndDeduplicateResults results).Pairwise (fun a b => dedupKey a ≠ dedupKey b) := by
  have hperm := perm_jsSort resultLe (removeDuplicates results)
  have hpair : (jsSort resultLe (removeDuplicates results)).Pairwise
      (fun a b => dedupKey a ≠ dedupKey b) := by
    refine (hperm.pairwise_iff (fun hab => ?_)).mpr (removeDuplicates_pairwise_keys results)
    exact fun h => hab h.symm
  exact hpair.sublist (List.take_sublist 10 _)

/-! ## Merge and enhancement lemmas -/

theorem enhance_preserves_fields (p s : GameResult) :
    (enhanceResultWithWikipediaData p s).title = p.title ∧
    (enhanceResultWithWikipediaData p s).releaseDate = p.releaseDate ∧
    (enhanceResultWithWikipediaData p s).platforms = p.platforms := by
  simp only [enhanceResultWithWikipediaData]
  split_ifs <;> simp

theorem areResultsSimilar_congr_left (a a' t : GameResult)
    (h1 : a.title = a'.title) (h2 : a.releaseDate = a'.releaseDate)
    (h3 : a.platforms = a'.platforms) :
    areResultsSimilar a t = areResultsSimilar a' t := by
  simp only [areResultsSimilar, h1, h2, h3]

theorem simToAny_enhanceFirst (ps : List GameResult) (s0 s : GameResult) :
    simToAny (enhanceFirst ps s0) s = simToAny ps s := by
  induction ps with
  | nil => rfl
  | cons p t ih =>
    simp only [enhanceFirst]
    by_cases hp : areResultsSimilar p s0 = true
    · rw [if_pos hp]
      simp only [simToAny, List.any_cons]
      obtain ⟨h1, h2, h3⟩ := enhance_preserves_fields p s0
      rw [areResultsSimilar_congr_left _ p s h1 h2 h3]
    · rw [if_neg hp]
      simp only [simToAny, List.any_cons] at ih ⊢
      rw [ih]

theorem mergeSearchResultsAux_decomp :
    ∀ (wp ps acc wd : List GameResult),
      (∀ s, simToAny ps s = simToAny wd s) →
      mergeSearchResultsAux ps acc wp =
        (wp.foldl (fun cur s => if simToAny cur s then enhanceFirst cur s else cur) ps) ++
          acc ++ wp.filter (fun s => !simToAny wd s) := by
  intro wp
  induction wp with
  | nil => intro ps acc wd hinv; simp [mergeSearchResultsAux]
  | cons s rest ih =>
    intro ps acc wd hinv
    simp only [mergeSearchResultsAux, List.foldl_cons, List.filter_cons]
    by_cases hs : simToAny ps s = true
    · rw [if_pos hs, if_pos hs]
      have hws : (!simToAny wd s) = false := by rw [← hinv s]; simp [hs]
      rw [hws]
      simp only [Bool.false_eq_true, if_false]
      exact ih (enhanceFirst ps s) acc wd
        (fun t => by rw [simToAny_enhanceFirst]; exact hinv t)
    · rw [if_neg hs, if_neg hs]
      have hws : (!simToAny wd s) = true := by rw [← hinv s]; simp [hs]
      rw [hws]
      simp only [if_pos]
      rw [ih ps (acc ++ [s]) wd hinv]
      simp [List.append_assoc]

theorem enhance_description (p s : GameResult) (h1 : truthyStr p.description = false)
    (h2 : truthyStr s.description = true) :
    (enhanceResultWithWikipediaData p s).description = s.description := by
  simp only [enhanceResultWithWikipediaData]
  split_ifs <;> simp_all

theorem enhance_attribution (p s : GameResult)
    (h : truthyStr (s.dataSource.bind DataSource.attribution) = true) :
    ((enhanceResultWithWikipediaData p s).dataSource.getD {}).fallback = some "wikipedia" ∧
    ((enhanceResultWithWikipediaData p s).dataSource.getD {}).wikipediaAttribution =
      s.dataSource.bind DataSource.attribution ∧
    (enhanceResultWithWikipediaData p s).dataSource.isSome = true := by
  simp only [enhanceResultWithWikipediaData]
  split_ifs <;> simp_all

theorem enhance_series (p s : GameResult) (h1 : truthyStr s.series = true)
    (h2 : truthyStr p.series = false) :
    (enhanceResultWithWikipediaData p s).series = s.series := by
  simp only [enhanceResultWithWikipediaData]
  split_ifs <;> simp_all

theorem enhance_modes (p s : GameResult) (h1 : s.modes.isSome = true)
    (h2 : p.modes = none ∨ p.modes = some []) :
    (enhanceResultWithWikipediaData p s).modes = s.modes := by
  simp only [enhanceResultWithWikipediaData]
  rcases h2 with h2 | h2 <;> split_ifs <;> simp_all

theorem enhance_flag (p s : GameResult) :
    ((enhanceResultWithWikipediaData p s).searchMetadata.getD {}).enhancedWithWikipedia = true ∧
    (enhanceResultWithWikipediaData p s).searchMetadata.isSome = true := by
  simp only [enhanceResultWithWikipediaData]
  split_ifs <;> simp

/-! ## Claim C1 -/

/-- C1: mergeSearchResults keeps the primaries (enhanced in place by each
similar secondary) followed by exactly the secondaries similar to no primary,
unchanged; and a single enhancement fills a missing description from the
secondary, records the Wikipedia fallback attribution, fills missing series
and absent-or-empty modes, and sets the enhancedWithWikipedia flag. -/
theorem mergeSearchResults_enhances_and_appends
    (wikidataResults wikipediaResults : List GameResult) :
    (mergeSearchResults wikidataResults wikipediaResults =
      mergeEnhancedPrimaries wikidataResults wikipediaResults ++
        wikipediaResults.filter (fun s => !simToAny wikidataResults s)) ∧
    (∀ p s : GameResult,
      (truthyStr p.description = false → truthyStr s.description = true →
        (enhanceResultWithWikipediaData p s).description = s.description) ∧
      (truthyStr (s.dataSource.bind DataSource.attribution) = true →
        ((enhanceResultWithWikipediaData p s).dataSource.getD {}).fallback = some "wikipedia" ∧
        ((enhanceResultWithWikipediaData p s).dataSource.getD {}).wikipediaAttribution =
          s.dataSource.bind DataSource.attribution ∧
        (enhanceResultWithWikipediaData p s).dataSource.isSome = true) ∧
      (truthyStr s.series = true → truthyStr p.series = false →
        (enhanceResultWithWikipediaData p s).series = s.series) ∧
      (s.modes.isSome = true → (p.modes = none ∨ p.modes = some []) →
        (enhanceResultWithWikipediaData p s).modes = s.modes) ∧
      (((enhanceResultWithWikipediaData p s).searchMetadata.getD {}).enhancedWithWikipedia = true ∧
        (enhanceResultWithWikipediaData p s).searchMetadata.isSome = true)) := by
  constructor
  · rw [mergeSearchResults,
      mergeSearchResultsAux_decomp wikipediaResults wikidataResults [] wikidataResults
        (fun _ => rfl)]
    simp [mergeEnhancedPrimaries]
  · intro p s
    exact ⟨enhance_description p s, enhance_attribution p s, enhance_series p s,
      enhance_modes p s, enhance_flag p s⟩

theorem mergeSearchResults_enhances_and_appends_witness :
    (mergeSearchResults [primarySample] [secondarySample] =
      mergeEnhancedPrimaries [primarySample] [secondarySample] ++
        [secondarySample].filter (fun s => !simToAny [primarySample] s)) ∧
    (enhanceResultWithWikipediaData primarySample secondarySample).description =
      secondarySample.description ∧
    ((enhanceResultWithWikipediaData primarySample secondarySample).dataSource.getD
      {}).fallback = some "wikipedia" ∧
    (enhanceResultWithWikipediaData primarySample secondarySample).series =
      secondarySample.series ∧
    (enhanceResultWithWikipediaData primarySample secondarySample).modes =
      secondarySample.modes ∧
    ((enhanceResultWithWikipediaData primarySample secondarySample).searchMetadata.getD
      {}).enhancedWithWikipedia = true := by
  obtain ⟨hA, hB⟩ :=
    mergeSearchResults_enhances_and_appends [primarySample] [secondarySample]
  obtain ⟨f1, f2, f3, f4, f5⟩ := hB primarySample secondarySample
  exact ⟨hA, f1 (by decide) (by decide), (f2 (by decide)).1, f3 (by decide) (by decide),
    f4 (by decide) (Or.inl (by decide)), f5.1⟩

/-! ## Claim C2 -/

theorem hasGoodQualityResults_length {l : List GameResult}
    (h : hasGoodQualityResults l = true) : decide (0 < l.length) = true := by
  cases l with
  | nil => simp [hasGoodQualityResults] at h
  | cons a t => simp

/-- C2: on a cache miss whose Wikidata results pass the good-quality gate,
searchGame never invokes the Wikipedia adapter and its whole outcome is
independent of what the Wikipedia adapter would have returned. -/
theorem searchGame_goodQuality_skips_wikipedia
    (query : String) (now : Nat) (freshId : String)
    (wikidataOutcome : Except Unit (List GameResult))
    (wp1 wp2 : Except Unit (Option GameResult)) (cache : SearchCache)
    (hmiss : (getCachedResult (jsTrim query) now cache).1 = none)
    (hgood : hasGoodQualityResults
      (executeWikidataSearch (jsTrim query) now wikidataOutcome) = true) :
    searchGame query now freshId wikidataOutcome wp1 cache =
      searchGame query now freshId wikidataOutcome wp2 cache ∧
    (searchGame query now freshId wikidataOutcome wp1 cache).wikipediaCalls = 0 := by
  by_cases hshort : (decide (query = "") || decide ((jsTrim query).length < 2)) = true
  · constructor <;> simp [searchGame, hshort]
  · rcases hgc : getCachedResult (jsTrim query) now cache with ⟨o, c1⟩
    rw [hgc] at hmiss
    simp only at hmiss
    subst hmiss
    have hcond : (decide (0 < (executeWikidataSearch (jsTrim query) now wikidataOutcome).length) &&
        hasGoodQualityResults (executeWikidataSearch (jsTrim query) now wikidataOutcome)) = true := by
      rw [hasGoodQualityResults_length hgood, hgood]
      rfl
    constructor
    · simp only [searchGame, hgc]
      rw [if_neg hshort, if_neg hshort]
      simp only [hcond, if_pos]
    · simp only [searchGame, hgc]
      rw [if_neg hshort]
      simp only [hcond, if_pos]

theorem searchGame_goodQuality_skips_wikipedia_witness :
    (searchGame "doom" 0 "sid" (Except.ok wdDoomResults) (Except.ok none) [] =
      searchGame "doom" 0 "sid" (Except.ok wdDoomResults) (Except.error ()) []) ∧
    (searchGame "doom" 0 "sid" (Except.ok wdDoomResults) (Except.ok none) []).wikipediaCalls = 0 :=
  searchGame_goodQuality_skips_wikipedia "doom" 0 "sid" (Except.ok wdDoomResults)
    (Except.ok none) (Except.error ()) [] (by decide) (by decide)

/-! ## Claim C7 -/

/-- C7: when both adapters throw, searchGame still returns (the model is a
total function, the source catches every adapter error internally) and the
returned list is empty. -/
theorem searchGame_both_adapters_fail_empty
    (query : String) (now : Nat) (freshId : String) (cache : SearchCache)
    (hmiss : (getCachedResult (jsTrim query) now cache).1 = none) :
    (searchGame query now freshId (Except.error ()) (Except.error ()) cache).results = [] := by
  by_cases hshort : (decide (query = "") || decide ((jsTrim query).length < 2)) = true
  · simp [searchGame, hshort]
  · rcases hgc : getCachedResult (jsTrim query) now cache with ⟨o, c1⟩
    rw [hgc] at hmiss
    simp only at hmiss
    subst hmiss
    simp only [searchGame, hgc]
    rw [if_neg hshort]
    rfl

theorem searchGame_both_adapters_fail_empty_witness :
    (searchGame "doom" 0 "sid" (Except.error ()) (Except.error ()) []).results = [] :=
  searchGame_both_adapters_fail_empty "doom" 0 "sid" [] (by decide)

/-! ## Claim C8 -/

/-- C8: a query with fewer than two non-whitespace characters is rejected
synchronously: the empty list is returned, the cache is untouched and
neither adapter is invoked. -/
theorem searchGame_short_query_no_adapters
    (query : String) (now : Nat) (freshId : String)
    (wikidataOutcome : Except Unit (List GameResult))
    (wikipediaOutcome : Except Unit (Option GameResult)) (cache : SearchCache)
    (h : query.data.countP (fun c => !isWsChar c) < 2) :
    searchGame query now freshId wikidataOutcome wikipediaOutcome cache =
      { results := [], cache := cache, wikidataCalls := 0, wikipediaCalls := 0 } := by
  have hlen : (jsTrim query).length < 2 := by
    have := trimList_short_of_few_nonws query.data h
    simpa [jsTrim, length_mk] using this
  simp [searchGame, hlen]

theorem searchGame_short_query_no_adapters_witness :
    searchGame " a " 5 "sid" (Except.ok wdDoomResults) (Except.ok none) [] =
      { results := [], cache := [], wikidataCalls := 0, wikipediaCalls := 0 } :=
  searchGame_short_query_no_adapters " a " 5 "sid" (Except.ok wdDoomResults)
    (Except.ok none) [] (by decide)

/-! ## Claim C4 -/

/-- C4 counterexample: a cache-miss search over two high-quality Wikidata
candidates returns both Doom and Doom II, which the similarity rule itself
judges similar (substring titles), so the returned list can contain two
similar entries. -/
theorem searchGame_returns_similar_pair_example :
    ((searchGame "doom" 0 "sid" (Except.ok wdDoomResults) (Except.ok none) []).results).length = 2 ∧
    areResultsSimilar
      (((searchGame "doom" 0 "sid" (Except.ok wdDoomResults) (Except.ok none) []).results).getD 0 {})
      (((searchGame "doom" 0 "sid" (Except.ok wdDoomResults) (Except.ok none) []).results).getD 1 {})
      = true := by
  decide

/-- C4 amended: on every non-cache-hit path the returned list is free of
exact duplicates, meaning no two entries share the deduplication key
(lowercased title, release date, sorted platforms); entries that are merely
similar under the similarity rule may both appear. -/
theorem searchGame_pairwise_distinct_dedupKeys
    (query : String) (now : Nat) (freshId : String)
    (wikidataOutcome : Except Unit (List GameResult))
    (wikipediaOutcome : Except Unit (Option GameResult)) (cache : SearchCache)
    (hmiss : (getCachedResult (jsTrim query) now cache).1 = none) :
    ((searchGame query now freshId wikidataOutcome wikipediaOutcome cache).results).Pairwise
      (fun a b => dedupKey a ≠ dedupKey b) := by
  by_cases hshort : (decide (query = "") || decide ((jsTrim query).length < 2)) = true
  · simp [searchGame, hshort]
  · rcases hgc : getCachedResult (jsTrim query) now cache with ⟨o, c1⟩
    rw [hgc] at hmiss
    simp only at hmiss
    subst hmiss
    simp only [searchGame, hgc]
    rw [if_neg hshort]
    split
    · exact rankAndDeduplicate_pairwise_keys _
    · exact rankAndDeduplicate_pairwise_keys _

theorem searchGame_pairwise_distinct_dedupKeys_witness :
    ((searchGame "doom" 0 "sid" (Except.ok wdDoomResults) (Except.ok none) []).results).Pairwise
      (fun a b => dedupKey a ≠ dedupKey b) :=
  searchGame_pairwise_distinct_dedupKeys "doom" 0 "sid" (Except.ok wdDoomResults)
    (Except.ok none) [] (by decide)

/-! ## Claim C5 -/

/-- C5 counterexample: an article is found but nothing is parsed from its
infobox, and the adapter still returns one candidate built from the page
data, not an empty sequence. -/
theorem wikipedia_no_infobox_one_candidate_example :
    (executeFallbackSearch "celeste" 0 "sid"
      (Except.ok (extractGameMetadata "now" true
        (Except.ok (pageCeleste, parseInfoBox none (fun _ => {})))))).length = 1 ∧
    ((executeFallbackSearch "celeste" 0 "sid"
      (Except.ok (extractGameMetadata "now" true
        (Except.ok (pageCeleste, parseInfoBox none (fun _ => {})))))).getD 0 {}).title =
      some "Celeste" := by
  decide

/-- C5 amended: when no matching article is found, or a content fetch fails,
the adapter yields zero candidates and no error; but when an article is
found and nothing is parsed from the infobox, the adapter yields exactly one
candidate built from page-level data rather than zero. -/
theorem wikipedia_adapter_failure_shape :
    (∀ (nowIso : String) (fetchOutcome : Except Unit (PageContent × InfoboxData)),
      extractGameMetadata nowIso false fetchOutcome = none) ∧
    (∀ (nowIso : String) (pageFound : Bool),
      extractGameMetadata nowIso pageFound (Except.error ()) = none) ∧
    (∀ (query : String) (now : Nat) (freshId nowIso : String) (pageFound : Bool)
      (fetchOutcome : Except Unit (PageContent × InfoboxData)),
      extractGameMetadata nowIso pageFound fetchOutcome = none →
      executeFallbackSearch query now freshId
        (Except.ok (extractGameMetadata nowIso pageFound fetchOutcome)) = []) ∧
    (∀ (query : String) (now : Nat) (freshId nowIso : String) (pageData : PageContent)
      (parseFields : String → InfoboxData),
      (executeFallbackSearch query now freshId
        (Except.ok (extractGameMetadata nowIso true
          (Except.ok (pageData, parseInfoBox none parseFields))))).length = 1) := by
  refine ⟨fun nowIso fetchOutcome => rfl, ?_, ?_, fun q now fid nowIso pd pf => rfl⟩
  · intro nowIso pageFound
    cases pageFound <;> rfl
  · intro q now fid nowIso pageFound fetchOutcome h
    rw [h]
    rfl

theorem wikipedia_adapter_failure_shape_witness :
    extractGameMetadata "now" false (Except.ok (pageCeleste, {})) = none ∧
    executeFallbackSearch "celeste" 0 "sid"
      (Except.ok (extractGameMetadata "now" false (Except.ok (pageCeleste, {})))) = [] ∧
    (executeFallbackSearch "celeste" 7 "sid2"
      (Except.ok (extractGameMetadata "t" true
        (Except.ok (pageCeleste, parseInfoBox none (fun _ => {})))))).length = 1 := by
  obtain ⟨hA, hB, hC, hD⟩ := wikipedia_adapter_failure_shape
  exact ⟨hA "now" _, hC "celeste" 0 "sid" "now" false _ (hA "now" _),
    hD "celeste" 7 "sid2" "t" pageCeleste _⟩

/-! ## Claim C9 -/

/-- C9 counterexample: deduplication is not mutation-free on candidates; the
kept candidate comes back with its platform array reordered (the in-place
Array.sort while building the key), so the platforms array contents are not
preserved in order. -/
theorem removeDuplicates_mutates_platform_order_example :
    removeDuplicates [unsortedSample] ≠ [unsortedSample] ∧
    (removeDuplicates [unsortedSample]).map GameResult.platforms = [["DOS", "PC"]] ∧
    unsortedSample.platforms = ["PC", "DOS"] := by
  decide

theorem removeDuplicatesAux_mem :
    ∀ (l : List GameResult) (seen : List String) (x : GameResult),
      x ∈ removeDuplicatesAux seen l →
      ∃ r ∈ l, x = { r with platforms := jsSort jsStrLe r.platforms } := by
  intro l
  induction l with
  | nil => intro seen x hx; simp [removeDuplicatesAux] at hx
  | cons r rest ih =>
    intro seen x hx
    simp only [removeDuplicatesAux] at hx
    by_cases hk : seen.contains (dedupKey r) = true
    · rw [if_pos hk] at hx
      obtain ⟨r0, hr0, he⟩ := ih seen x hx
      exact ⟨r0, List.mem_cons_of_mem _ hr0, he⟩
    · rw [if_neg hk] at hx
      rcases List.mem_cons.mp hx with rfl | hx
      · exact ⟨r, List.mem_cons_self _ _, rfl⟩
      · obtain ⟨r0, hr0, he⟩ := ih _ x hx
        exact ⟨r0, List.mem_cons_of_mem _ hr0, he⟩

/-- C9 amended: the pipeline treats candidates as values except that
removeDuplicates returns each kept first occurrence with its platforms
replaced by the sorted array (the observable effect of the in-place sort of
the source): its output equals first-occurrence filtering of the
platform-sorted copies, and every returned candidate is an input candidate
with its platforms sorted. -/
theorem removeDuplicates_shape (results : List GameResult) :
    (removeDuplicates results =
      removeDuplicatesAux []
        (results.map (fun r => { r with platforms := jsSort jsStrLe r.platforms }))) ∧
    (∀ x ∈ removeDuplicates results, ∃ r ∈ results,
      x = { r with platforms := jsSort jsStrLe r.platforms }) := by
  constructor
  · rw [removeDuplicates]
    suffices h : ∀ (l : List GameResult) (seen : List String),
        removeDuplicatesAux seen l =
          removeDuplicatesAux seen
            (l.map (fun r => { r with platforms := jsSort jsStrLe r.platforms })) from
      h results []
    intro l
    induction l with
    | nil => intro seen; rfl
    | cons r rest ih =>
      intro seen
      simp only [List.map_cons, removeDuplicatesAux, dedupKey_sortPlatforms]
      by_cases hk : seen.contains (dedupKey r) = true
      · rw [if_pos hk, if_pos hk]
        exact ih seen
      · rw [if_neg hk, if_neg hk, ih]
        simp [jsSort_idem jsStrLe jsStrLe_total]
  · intro x hx
    exact removeDuplicatesAux_mem results [] x hx

theorem removeDuplicates_shape_witness :
    (removeDuplicates [unsortedSample] =
      removeDuplicatesAux []
        ([unsortedSample].map (fun r => { r with platforms := jsSort jsStrLe r.platforms }))) ∧
    (∃ r ∈ [unsortedSample], (removeDuplicates [unsortedSample]).getD 0 {} =
      { r with platforms := jsSort jsStrLe r.platforms }) := by
  obtain ⟨h1, h2⟩ := removeDuplicates_shape [unsortedSample]
  exact ⟨h1, h2 _ (by decide)⟩

/-! ## Claim C6 -/

theorem jsOrDefault_ne_empty (a : Option String) (d : String) (hd : d ≠ "") :
    jsOrDefault a d ≠ "" := by
  cases a with
  | none => simpa [jsOrDefault, truthyStr] using hd
  | some s =>
    by_cases hs : s = ""
    · simp [jsOrDefault, truthyStr, hs, hd]
    · simp [jsOrDefault, truthyStr, hs]

theorem addBindingLabels_title (b : SparqlBinding) (g : GameResult) :
    (addBindingLabels b g).title = g.title := by
  simp only [addBindingLabels]
  repeat' split
  all_goals rfl

theorem gameMapGet_mem :
    ∀ (m : List (String × GameResult)) (k : String) (v : GameResult),
      gameMapGet m k = some v → ∃ p ∈ m, p.2 = v := by
  intro m
  induction m with
  | nil => intro k v h; simp [gameMapGet] at h
  | cons q t ih =>
    intro k v h
    obtain ⟨k1, v1⟩ := q
    simp only [gameMapGet] at h
    by_cases hk : k1 = k
    · rw [if_pos hk] at h
      exact ⟨(k1, v1), List.mem_cons_self _ _, by injection h with h2⟩
    · rw [if_neg hk] at h
      obtain ⟨p, hp, hv⟩ := ih k v h
      exact ⟨p, List.mem_cons_of_mem _ hp, hv⟩

theorem gameMapReplace_mem :
    ∀ (m : List (String × GameResult)) (k : String) (v : GameResult)
      (p : String × GameResult),
      p ∈ gameMapReplace m k v → p.2 = v ∨ ∃ q ∈ m, p.2 = q.2 := by
  intro m
  induction m with
  | nil => intro k v p hp; simp [gameMapReplace] at hp
  | cons q0 t ih =>
    intro k v p hp
    obtain ⟨k1, v1⟩ := q0
    simp only [gameMapReplace] at hp
    by_cases hk : k1 = k
    · rw [if_pos hk] at hp
      rcases List.mem_cons.mp hp with rfl | hp
      · exact Or.inl rfl
      · exact Or.inr ⟨p, List.mem_cons_of_mem _ hp, rfl⟩
    · rw [if_neg hk] at hp
      rcases List.mem_cons.mp hp with rfl | hp
      · exact Or.inr ⟨(k1, v1), List.mem_cons_self _ _, rfl⟩
      · rcases ih k v p hp with h | ⟨q, hq, hv⟩
        · exact Or.inl h
        · exact Or.inr ⟨q, List.mem_cons_of_mem _ hq, hv⟩

theorem gameMapUpdate_titles (jd : JsDate) (nowIso : String)
    (m : List (String × GameResult)) (b : SparqlBinding)
    (hm : ∀ p ∈ m, ∃ t, p.2.title = some t ∧ t ≠ "") :
    ∀ p ∈ gameMapUpdate jd nowIso m b, ∃ t, p.2.title = some t ∧ t ≠ "" := by
  intro p hp
  simp only [gameMapUpdate] at hp
  rcases hw : extractValue b.wikidataId with _ | wid <;>
    rcases hg : extractValue b.game with _ | uri <;> rw [hw, hg] at hp
  · exact hm p hp
  · exact hm p hp
  · exact hm p hp
  · dsimp only at hp
    rcases hget : gameMapGet m wid with _ | g
    · rw [hget] at hp
      rcases List.mem_append.mp hp with hp | hp
      · exact hm p hp
      · have hpe : p = (wid, addBindingLabels b (initWikidataEntry jd nowIso wid uri b)) := by
          simpa using hp
        refine ⟨jsOrDefault (extractValue b.gameLabel) "Unknown Title", ?_, ?_⟩
        · rw [hpe]
          show (addBindingLabels b (initWikidataEntry jd nowIso wid uri b)).title = _
          rw [addBindingLabels_title]
          rfl
        · exact jsOrDefault_ne_empty _ _ (by decide)
    · rw [hget] at hp
      rcases gameMapReplace_mem m wid (addBindingLabels b g) p hp with h | ⟨q, hq, hv⟩
      · obtain ⟨q, hq, hqv⟩ := gameMapGet_mem m wid g hget
        obtain ⟨t, ht, hne⟩ := hm q hq
        refine ⟨t, ?_, hne⟩
        rw [h, addBindingLabels_title, ← hqv]
        exact ht
      · rw [hv]
        exact hm q hq

theorem parseWikidataResponse_titles (jd : JsDate) (nowIso : String)
    (response : Option (List SparqlBinding)) :
    ∀ x ∈ parseWikidataResponse jd nowIso response, ∃ t, x.title = some t ∧ t ≠ "" := by
  intro x hx
  cases response with
  | none => simp [parseWikidataResponse] at hx
  | some bindings =>
    simp only [parseWikidataResponse, List.mem_map] at hx
    obtain ⟨p, hp, hpx⟩ := hx
    have hfold : ∀ (bs : List SparqlBinding) (m0 : List (String × GameResult)),
        (∀ q ∈ m0, ∃ t, q.2.title = some t ∧ t ≠ "") →
        ∀ q ∈ bs.foldl (gameMapUpdate jd nowIso) m0, ∃ t, q.2.title = some t ∧ t ≠ "" := by
      intro bs
      induction bs with
      | nil => intro m0 hm0 q hq; exact hm0 q hq
      | cons b bt ih =>
        intro m0 hm0 q hq
        exact ih _ (gameMapUpdate_titles jd nowIso m0 b hm0) q hq
    obtain ⟨t, ht, hne⟩ := hfold bindings [] (by intro q hq; simp at hq) p hp
    refine ⟨t, ?_, hne⟩
    rw [← hpx]
    exact ht

/-- C6 counterexample: a row without a usable gameLabel is not discarded; it
flows through the whole Wikidata path with the placeholder title Unknown
Title and reaches scoring (its search metadata carries a confidence), even
though the never-invoked validator isValidGameData would reject it. -/
theorem unknownTitle_reaches_scoring_example :
    ((executeWikidataSearch "zelda" 0 (Except.ok
      (extractEnhancedMetadata jdSample (fun _ => true) "now"
        (some [bindingNoLabel])))).length = 1) ∧
    (((executeWikidataSearch "zelda" 0 (Except.ok
      (extractEnhancedMetadata jdSample (fun _ => true) "now"
        (some [bindingNoLabel])))).getD 0 {}).title = some "Unknown Title") ∧
    ((((executeWikidataSearch "zelda" 0 (Except.ok
      (extractEnhancedMetadata jdSample (fun _ => true) "now"
        (some [bindingNoLabel])))).getD 0 {}).searchMetadata.bind
          SearchMetadata.confidence).isSome = true) ∧
    (isValidGameData ((extractEnhancedMetadata jdSample (fun _ => true) "now"
      (some [bindingNoLabel])).getD 0 {}) = false) := by
  decide

/-- C6 amended: the Wikidata path discards nothing for lack of a title: the
scored candidates are exactly the parsed candidates (same titles in order),
every one of which carries a non-empty title, because an undeterminable
title is replaced by the placeholder Unknown Title rather than the
candidate being dropped. -/
theorem wikidata_titles_nonempty_not_discarded
    (jd : JsDate) (isValidImageUrl : String → Bool) (nowIso query : String) (now : Nat)
    (response : Option (List SparqlBinding)) :
    ((executeWikidataSearch query now (Except.ok
        (extractEnhancedMetadata jd isValidImageUrl nowIso response))).map GameResult.title =
      (parseWikidataResponse jd nowIso response).map GameResult.title) ∧
    (∀ r ∈ executeWikidataSearch query now (Except.ok
        (extractEnhancedMetadata jd isValidImageUrl nowIso response)),
      ∃ t, r.title = some t ∧ t ≠ "") := by
  constructor
  · simp only [executeWikidataSearch, extractEnhancedMetadata, List.map_map]
    generalize parseWikidataResponse jd nowIso response = L
    induction L with
    | nil => rfl
    | cons x t ih => exact congrArg (List.cons x.title) ih
  · intro r hr
    simp only [executeWikidataSearch, extractEnhancedMetadata, List.map_map,
      List.mem_map] at hr
    obtain ⟨x, hx, hxr⟩ := hr
    obtain ⟨t, ht, hne⟩ := parseWikidataResponse_titles jd nowIso response x hx
    refine ⟨t, ?_, hne⟩
    rw [← hxr]
    exact ht

theorem wikidata_titles_nonempty_not_discarded_witness :
    ((executeWikidataSearch "doom" 0 (Except.ok
        (extractEnhancedMetadata jdSample (fun _ => true) "now"
          (some [bindingDoom])))).map GameResult.title =
      (parseWikidataResponse jdSample "now" (some [bindingDoom])).map GameResult.title) ∧
    (∃ t, ((executeWikidataSearch "doom" 0 (Except.ok
        (extractEnhancedMetadata jdSample (fun _ => true) "now"
          (some [bindingDoom])))).getD 0 {}).title = some t ∧ t ≠ "") := by
  obtain ⟨h1, h2⟩ := wikidata_titles_nonempty_not_discarded jdSample (fun _ => true)
    "now" "doom" 0 (some [bindingDoom])
  exact ⟨h1, h2 _ (by decide)⟩

/-! ## Claim C10 -/

theorem searchGame_hit_after_cacheResult
    (q2 : String) (now2 : Nat) (fid2 : String)
    (wd2 : Except Unit (List GameResult)) (wp2 : Except Unit (Option GameResult))
    (q : String) (now : Nat) (results : List GameResult) (c1 : SearchCache)
    (hkey : jsToLower (jsTrim q2) = jsToLower (jsTrim q))
    (hlen : 2 ≤ (jsTrim q).length)
    (hfresh : now2 - now ≤ cacheTimeout) :
    searchGame q2 now2 fid2 wd2 wp2 (cacheResult (jsTrim q) now results c1) =
      { results := results, cache := cacheResult (jsTrim q) now results c1,
        wikidataCalls := 0, wikipediaCalls := 0 } := by
  have hlen2 : 2 ≤ (jsTrim q2).length := by
    have e : (jsTrim q2).length = (jsTrim q).length := by
      have h := congrArg String.length hkey
      rwa [length_jsToLower, length_jsToLower] at h
    rw [e]; exact hlen
  have hne2 : ¬ (q2 = "") := by
    intro h
    rw [h] at hlen2
    simp [jsTrim_empty] at hlen2
  have hshort : (decide (q2 = "") || decide ((jsTrim q2).length < 2)) = false := by
    simp only [Bool.or_eq_false_iff, decide_eq_false_iff_not]
    exact ⟨hne2, by omega⟩
  have hkk : jsTrim (jsToLower (jsTrim q2)) = jsTrim (jsToLower (jsTrim q)) := by rw [hkey]
  have hlook : mapLookup (cacheResult (jsTrim q) now results c1)
      (jsTrim (jsToLower (jsTrim q2))) = some { results := results, timestamp := now } := by
    rw [hkk, cacheResult]
    exact lookup_cleanCache_mapSet c1 _ _ now (by simp)
  have hget : getCachedResult (jsTrim q2) now2 (cacheResult (jsTrim q) now results c1) =
      (some results, cacheResult (jsTrim q) now results c1) := by
    simp only [getCachedResult, hlook]
    rw [if_neg (Nat.not_lt.mpr hfresh)]
  simp only [searchGame, hget]
  rw [if_neg (by rw [hshort]; exact Bool.false_ne_true)]

/-- C10: a completed cache-miss search stores its result under the
lowercased trimmed query, and any later search within the timeout whose
query has the same lowercased trimmed form returns exactly the cached list,
without invoking either adapter and without touching the cache. -/
theorem searchGame_cache_roundtrip
    (q q2 : String) (now now2 : Nat) (fid fid2 : String)
    (wd wd2 : Except Unit (List GameResult)) (wp wp2 : Except Unit (Option GameResult))
    (cache : SearchCache)
    (hkey : jsToLower (jsTrim q2) = jsToLower (jsTrim q))
    (hlen : 2 ≤ (jsTrim q).length)
    (hmiss : (getCachedResult (jsTrim q) now cache).1 = none)
    (hfresh : now2 - now ≤ cacheTimeout) :
    searchGame q2 now2 fid2 wd2 wp2 ((searchGame q now fid wd wp cache).cache) =
      { results := (searchGame q now fid wd wp cache).results,
        cache := (searchGame q now fid wd wp cache).cache,
        wikidataCalls := 0, wikipediaCalls := 0 } := by
  have hne : ¬ (q = "") := by
    intro h
    rw [h] at hlen
    simp [jsTrim_empty] at hlen
  have hshort : (decide (q = "") || decide ((jsTrim q).length < 2)) = false := by
    simp only [Bool.or_eq_false_iff, decide_eq_false_iff_not]
    exact ⟨hne, by omega⟩
  rcases hgc : getCachedResult (jsTrim q) now cache with ⟨o, c1⟩
  rw [hgc] at hmiss
  simp only at hmiss
  subst hmiss
  have hinner : ∃ R n, searchGame q now fid wd wp cache =
      { results := R, cache := cacheResult (jsTrim q) now R c1,
        wikidataCalls := 1, wikipediaCalls := n } := by
    simp only [searchGame, hgc]
    rw [if_neg (by rw [hshort]; exact Bool.false_ne_true)]
    split
    · exact ⟨_, 0, rfl⟩
    · exact ⟨_, 1, rfl⟩
  obtain ⟨R, n, hR⟩ := hinner
  rw [hR]
  exact searchGame_hit_after_cacheResult q2 now2 fid2 wd2 wp2 q now R c1 hkey hlen hfresh

theorem searchGame_cache_roundtrip_witness :
    searchGame "  DOOM  " 1000 "b" (Except.error ()) (Except.error ())
      ((searchGame "doom" 0 "a" (Except.ok wdDoomResults) (Except.ok none) []).cache) =
      { results := (searchGame "doom" 0 "a" (Except.ok wdDoomResults) (Except.ok none) []).results,
        cache := (searchGame "doom" 0 "a" (Except.ok wdDoomResults) (Except.ok none) []).cache,
        wikidataCalls := 0, wikipediaCalls := 0 } :=
  searchGame_cache_roundtrip "doom" "  DOOM  " 0 1000 "a" "b" (Except.ok wdDoomResults)
    (Except.error ()) (Except.ok none) (Except.error ()) [] (by decide) (by decide)
    (by decide) (by decide)
